import Mathlib

/-!
# Portal scene: material binding, fireflies, resize and the render loop

A shallow embedding of `src/script.js`.  The script builds one fixed three.js
scene.  Four pieces of it carry behaviour of their own and are embedded here:

* the callback of `gltfLoader.load` (lines 77-97), which overwrites the material
  of every node of the loaded graph and then rebinds five named children;
* the loop that fills the two firefly buffers (lines 103-114);
* the `resize` listener (lines 145-159);
* `tick` (lines 205-220), the body of the render loop.

Objects that JavaScript mutates in place are passed explicitly: a function that
mutates an object returns the new value of that object.  A reference to a child
of the graph root is the index of that child in `children`.
-/

set_option autoImplicit false

namespace Portal

/-! ## Materials and the loaded graph -/

/-- The value of a node's `material` slot.  The three constants of lines 57, 60
and 63 are distinct objects; `asset k` stands for whatever material the file
gave the node and `undefined` for a node (a group) without one. -/
inductive Material where
  | undefined
  | asset (k : Nat)
  | bakedMaterial
  | poleLightMaterial
  | portalLightMaterial
  deriving DecidableEq, Repr

/-- A node of the graph handed to the load callback: `name`, the `material`
slot and the ordered `children`. -/
inductive Object3D where
  | mk (name : String) (material : Material) (children : List Object3D)
  deriving Repr

namespace Object3D

/-- The `name` of a node. -/
def name : Object3D → String
  | mk n _ _ => n

/-- The `material` slot of a node. -/
def material : Object3D → Material
  | mk _ m _ => m

/-- The `children` of a node, in order. -/
def children : Object3D → List Object3D
  | mk _ _ cs => cs

mutual
/-- Transcribes `Object3D.traverse` for a visitor that writes the `material`
slot of the node it is given: the visitor runs on the node itself, then the
traversal descends into every child in order.  `visitor n` is the value the
slot of `n` holds when the visitor returns. -/
def traverse (visitor : Object3D → Material) : Object3D → Object3D
  | mk n m cs => mk n (visitor (mk n m cs)) (traverseChildren visitor cs)
/-- The loop over `children` inside `traverse`. -/
def traverseChildren (visitor : Object3D → Material) : List Object3D → List Object3D
  | [] => []
  | c :: cs => traverse visitor c :: traverseChildren visitor cs
end

/-- Transcribes `children.find(child => child.name === target)`: a reference to
the first child whose name equals `target`, `none` for `undefined`. -/
def find (g : Object3D) (target : String) : Option Nat :=
  g.children.findIdx? (fun child => child.name == target)

/-- Writes the `material` slot of one node. -/
def setMaterial (m : Material) : Object3D → Object3D
  | mk n _ cs => mk n m cs

/-- Transcribes `mesh.material = m` where `mesh` is the reference `i` to a child
of `g`. -/
def assignChildMaterial (g : Object3D) (i : Nat) (m : Material) : Object3D :=
  match g with
  | mk n mat cs => mk n mat (cs.modify (setMaterial m) i)

/-- The node reached from `g` by following child indices. -/
def nodeAt : Object3D → List Nat → Option Object3D
  | g, [] => some g
  | g, i :: p =>
    match g.children[i]? with
    | none => none
    | some c => nodeAt c p

mutual
/-- Every node of the graph, the root first, in traversal order. -/
def nodes : Object3D → List Object3D
  | mk n m cs => mk n m cs :: nodesOfChildren cs
/-- The nodes of a list of subtrees. -/
def nodesOfChildren : List Object3D → List Object3D
  | [] => []
  | c :: cs => nodes c ++ nodesOfChildren cs
end

end Object3D

open Object3D

/-- The four names bound to `poleLightMaterial`, in the order of lines 89-92. -/
def poleLightNames : List String :=
  ["poleLightA", "poleLightB", "poleLightC", "poleLightD"]

/-- The five names the callback looks up, in the order of lines 89-94. -/
def requiredNames : List String :=
  poleLightNames ++ ["portalLight"]

/-! ## The render scene -/

/-- An object added to `scene`. -/
inductive SceneChild where
  | fireFlies
  | camera
  | gltfScene (root : Object3D)
  deriving Repr

/-- Transcribes `scene.add(object)` for an object without a parent: it is pushed
at the end of the scene's children. -/
def sceneAdd (scene : List SceneChild) (object : SceneChild) : List SceneChild :=
  scene ++ [object]

/-- The result of running the load callback: the render scene, the loaded graph
as the callback left it, and the variable whose `material` could not be written
when the callback raised a `TypeError`. -/
structure LoadResult where
  scene : List SceneChild
  gltfScene : Object3D
  error : Option String
  deriving Repr

/-- Transcribes the callback of `gltfLoader.load`, lines 77-97.  The five
lookups of lines 82-87 cannot fail; the write through an `undefined` reference
raises and ends the callback there, with the graph as mutated so far. -/
def loadCallback (scene : List SceneChild) (gltfScene : Object3D) : LoadResult :=
  let g := traverse (fun _ => Material.bakedMaterial) gltfScene
  let poleLightAMesh := find g "poleLightA"
  let poleLightBMesh := find g "poleLightB"
  let poleLightCMesh := find g "poleLightC"
  let poleLightDMesh := find g "poleLightD"
  let portalLightMesh := find g "portalLight"
  match poleLightAMesh with
  | none => ⟨scene, g, some "poleLightAMesh"⟩
  | some a =>
  let g := assignChildMaterial g a Material.poleLightMaterial
  match poleLightBMesh with
  | none => ⟨scene, g, some "poleLightBMesh"⟩
  | some b =>
  let g := assignChildMaterial g b Material.poleLightMaterial
  match poleLightCMesh with
  | none => ⟨scene, g, some "poleLightCMesh"⟩
  | some c =>
  let g := assignChildMaterial g c Material.poleLightMaterial
  match poleLightDMesh with
  | none => ⟨scene, g, some "poleLightDMesh"⟩
  | some d =>
  let g := assignChildMaterial g d Material.poleLightMaterial
  match portalLightMesh with
  | none => ⟨scene, g, some "portalLightMesh"⟩
  | some p =>
  let g := assignChildMaterial g p Material.portalLightMaterial
  ⟨sceneAdd scene (SceneChild.gltfScene g), g, none⟩

/-! ## Numbers

JavaScript numbers are binary64 values and a `Float32Array` stores binary32
values.  Finite values are rationals here.  The two roundings are not computed:
they are taken as parameters of which only what IEEE 754 round-to-nearest
guarantees is assumed, namely that rounding is monotone and that a
representable value rounds to itself. -/

/-- The roundings of the arithmetic: `fl64` after every operation on numbers,
`fl32` on a store into a `Float32Array`.  Both are monotone and leave the
half-integers between -2 and 2 as they are. -/
structure Rounding where
  fl64 : ℚ → ℚ
  fl32 : ℚ → ℚ
  fl64_mono : Monotone fl64
  fl32_mono : Monotone fl32
  fl64_exact : ∀ k : ℤ, -4 ≤ k → k ≤ 4 → fl64 ((k : ℚ) / 2) = (k : ℚ) / 2
  fl32_exact : ∀ k : ℤ, -4 ≤ k → k ≤ 4 → fl32 ((k : ℚ) / 2) = (k : ℚ) / 2

/-- Arithmetic without rounding error. -/
def exactArithmetic : Rounding where
  fl64 := fun q => q
  fl32 := fun q => q
  fl64_mono := fun _ _ h => h
  fl32_mono := fun _ _ h => h
  fl64_exact := fun _ _ _ => rfl
  fl32_exact := fun _ _ _ => rfl

/-- A number that may be infinite or not a number: the value of a quotient. -/
inductive JSNumber where
  | finite (q : ℚ)
  | infinity
  | nan
  deriving DecidableEq, Repr

/-- Transcribes `width / height` for two non-negative integers: `0 / 0` is
`NaN`, a positive number over zero is `Infinity`, and any other quotient is
rounded to binary64. -/
def jsDiv (R : Rounding) (width height : Nat) : JSNumber :=
  if height = 0 then
    if width = 0 then JSNumber.nan else JSNumber.infinity
  else JSNumber.finite (R.fl64 ((width : ℚ) / (height : ℚ)))

/-- Transcribes `Math.min(window.devicePixelRatio, 2)` for a finite ratio. -/
def clampPixelRatio (devicePixelRatio : ℚ) : ℚ :=
  min devicePixelRatio 2

/-! ## Fireflies -/

/-- A `Float32Array`: its elements, and the indices that element assignments
have written so far, oldest first. -/
structure Float32Array where
  data : List ℚ
  writes : List Nat
  deriving Repr

namespace Float32Array

/-- Transcribes `new Float32Array(length)`: `length` zeros, nothing written. -/
def create (length : Nat) : Float32Array :=
  ⟨List.replicate length 0, []⟩

/-- Transcribes `array[i] = v`: the value is rounded to binary32 and stored; a
store past the end changes no element. -/
def store (R : Rounding) (array : Float32Array) (i : Nat) (v : ℚ) : Float32Array :=
  ⟨array.data.set i (R.fl32 v), array.writes ++ [i]⟩

end Float32Array

/-- What the generation loop mutates: the two buffers and the number of calls
made to `Math.random` so far. -/
structure FireFlies where
  positionArray : Float32Array
  scaleArray : Float32Array
  randomCalls : Nat
  deriving Repr

/-- Transcribes the body of the loop, lines 109-113.  `random k` is the value
the call number `k` of `Math.random` returns. -/
def fireFliesBody (R : Rounding) (random : Nat → ℚ) (s : FireFlies) (i : Nat) : FireFlies :=
  let positionArray := s.positionArray.store R (i * 3 + 0)
    (R.fl64 (R.fl64 (random s.randomCalls - 1 / 2) * 4))
  let positionArray := positionArray.store R (i * 3 + 1)
    (R.fl64 (random (s.randomCalls + 1) * (3 / 2)))
  let positionArray := positionArray.store R (i * 3 + 2)
    (R.fl64 (R.fl64 (random (s.randomCalls + 2) - 1 / 2) * 4))
  let scaleArray := s.scaleArray.store R i (random (s.randomCalls + 3))
  ⟨positionArray, scaleArray, s.randomCalls + 4⟩

/-- Transcribes lines 105-114: the two allocations and the loop
`for (let i = 0; i < fireFliesCount; i++)`. -/
def generateFireFlies (R : Rounding) (random : Nat → ℚ) (fireFliesCount : Nat) : FireFlies :=
  (List.range fireFliesCount).foldl (fireFliesBody R random)
    ⟨Float32Array.create (fireFliesCount * 3), Float32Array.create fireFliesCount, 0⟩

/-- The constant of line 104. -/
def fireFliesCount : Nat := 60

/-! ## The world: scene, camera, renderer and uniforms -/

/-- What the script reads from `window`. -/
structure Window where
  innerWidth : Nat
  innerHeight : Nat
  devicePixelRatio : ℚ
  deriving Repr

/-- The object `sizes` of line 140. -/
structure Sizes where
  width : Nat
  height : Nat
  deriving DecidableEq, Repr

/-- The camera: its `aspect`, the aspect its projection matrix was last
computed from, and its position. -/
structure PerspectiveCamera where
  aspect : JSNumber
  projectionAspect : JSNumber
  position : ℚ × ℚ × ℚ
  deriving DecidableEq, Repr

/-- The renderer: the size and pixel ratio it was last given. -/
structure WebGLRenderer where
  width : Nat
  height : Nat
  pixelRatio : ℚ
  deriving DecidableEq, Repr

/-- The uniforms of `fireFliesMaterial`, line 121. -/
structure FireFliesUniforms where
  uPixelRatio : ℚ
  uSize : ℚ
  uTime : ℚ
  deriving DecidableEq, Repr

/-- The uniforms of `portalLightMaterial`, line 66; colours as hex numbers. -/
structure PortalUniforms where
  uTime : ℚ
  uColorStart : Nat
  uColorEnd : Nat
  deriving DecidableEq, Repr

/-- What one call of `renderer.render(scene, camera)` reads. -/
structure Draw where
  scene : List SceneChild
  camera : PerspectiveCamera
  fireFliesUniforms : FireFliesUniforms
  portalUniforms : PortalUniforms
  deriving Repr

/-- The mutable state of the page.  `draws` lists the calls of
`renderer.render` so far, oldest first, and `animationFrameRequests` counts the
calls of `window.requestAnimationFrame`. -/
structure World where
  scene : List SceneChild
  fireFlies : FireFlies
  fireFliesUniforms : FireFliesUniforms
  portalUniforms : PortalUniforms
  sizes : Sizes
  camera : PerspectiveCamera
  renderer : WebGLRenderer
  draws : List Draw
  animationFrameRequests : Nat
  deriving Repr

/-- Transcribes the top level of the script up to line 221, the first call of
`tick` excluded: the scene starts empty, receives the fireflies (line 135) and
the camera (line 170), and the uniforms, camera and renderer take their initial
values. -/
def startup (R : Rounding) (window : Window) (random : Nat → ℚ) : World :=
  let scene : List SceneChild := []
  let fireFlies := generateFireFlies R random fireFliesCount
  let fireFliesUniforms : FireFliesUniforms :=
    ⟨clampPixelRatio window.devicePixelRatio, 100, 0⟩
  let portalUniforms : PortalUniforms := ⟨0, 0xffffff, 0x3C8DFF⟩
  let scene := sceneAdd scene SceneChild.fireFlies
  let sizes : Sizes := ⟨window.innerWidth, window.innerHeight⟩
  let aspect := jsDiv R sizes.width sizes.height
  let camera : PerspectiveCamera := ⟨aspect, aspect, (0, 3 / 4, 16 / 5)⟩
  let scene := sceneAdd scene SceneChild.camera
  let renderer : WebGLRenderer :=
    ⟨sizes.width, sizes.height, clampPixelRatio window.devicePixelRatio⟩
  ⟨scene, fireFlies, fireFliesUniforms, portalUniforms, sizes, camera, renderer, [], 0⟩

/-- Transcribes the `resize` listener, lines 145-159. -/
def resize (R : Rounding) (w : World) (window : Window) : World :=
  let sizes : Sizes := ⟨window.innerWidth, window.innerHeight⟩
  let camera := { w.camera with aspect := jsDiv R sizes.width sizes.height }
  let camera := { camera with projectionAspect := camera.aspect }
  let renderer := { w.renderer with width := sizes.width, height := sizes.height }
  let renderer := { renderer with pixelRatio := clampPixelRatio window.devicePixelRatio }
  let fireFliesUniforms :=
    { w.fireFliesUniforms with uPixelRatio := clampPixelRatio window.devicePixelRatio }
  { w with sizes := sizes, camera := camera, renderer := renderer,
           fireFliesUniforms := fireFliesUniforms }

/-- What one frame receives from outside: the value `clock.getElapsedTime()`
returns and the position `controls.update()` leaves the camera at. -/
structure FrameInput where
  elapsedTime : ℚ
  cameraPosition : ℚ × ℚ × ℚ
  deriving Repr

/-- Transcribes `tick`, lines 205-220, in statement order: sample the clock,
update the controls, render, request the next frame, write the two `uTime`
uniforms. -/
def tick (w : World) (input : FrameInput) : World :=
  let elapsedTime := input.elapsedTime
  let camera := { w.camera with position := input.cameraPosition }
  let draws := w.draws ++ [⟨w.scene, camera, w.fireFliesUniforms, w.portalUniforms⟩]
  let animationFrameRequests := w.animationFrameRequests + 1
  let fireFliesUniforms := { w.fireFliesUniforms with uTime := elapsedTime }
  let portalUniforms := { w.portalUniforms with uTime := elapsedTime }
  { w with camera := camera, draws := draws,
           animationFrameRequests := animationFrameRequests,
           fireFliesUniforms := fireFliesUniforms, portalUniforms := portalUniforms }

/-- What the host delivers to the page after startup: a display refresh, a
window resize, or the completion of the asset load. -/
inductive Event where
  | frame (input : FrameInput)
  | resize (window : Window)
  | load (gltfScene : Object3D)

/-- One event handled to completion.  A `TypeError` raised by the load callback
is not caught by anything: the callback ends and the page goes on. -/
def step (R : Rounding) (w : World) : Event → World
  | Event.frame input => tick w input
  | Event.resize window => resize R w window
  | Event.load gltfScene => { w with scene := (loadCallback w.scene gltfScene).scene }

/-- The events handled one after the other. -/
def run (R : Rounding) (w : World) (events : List Event) : World :=
  events.foldl (step R) w

/-- The clock samples of the frames among the events, in order. -/
def frameSamples : List Event → List ℚ
  | [] => []
  | Event.frame input :: events => input.elapsedTime :: frameSamples events
  | _ :: events => frameSamples events


/-! ## Vocabulary of the statements -/

namespace Object3D

/-- The name of the node at a path. -/
def nameAt (g : Object3D) (p : List Nat) : Option String :=
  (nodeAt g p).map name

/-- The material of the node at a path. -/
def materialAt (g : Object3D) (p : List Nat) : Option Material :=
  (nodeAt g p).map material

end Object3D

/-- The material the callback binds to a name (lines 89-94). -/
def bindingRule (target : String) : Material :=
  if target ∈ poleLightNames then Material.poleLightMaterial
  else if target = "portalLight" then Material.portalLightMaterial
  else Material.bakedMaterial

/-- The graph once every node holds `bakedMaterial` (lines 78-80). -/
def baked (g : Object3D) : Object3D :=
  traverse (fun _ => Material.bakedMaterial) g

/-- The required names listed before the first one that no child of the root
bears, in the order of lines 89-94. -/
def boundNames (g : Object3D) : List String :=
  requiredNames.takeWhile (fun target => (find g target).isSome)

/-- The graph `G` is `g` with every node holding `bakedMaterial` except the
first child of each name in `names`, which holds the material bound to that
name. -/
def BoundTo (g G : Object3D) (names : List String) : Prop :=
  (∀ p, nameAt G p = nameAt g p) ∧
  ∀ p n, nodeAt G p = some n →
    (∀ target ∈ names, ∀ i, find g target = some i → p = [i] →
      n.material = bindingRule target) ∧
    ((∀ target ∈ names, ∀ i, find g target = some i → p ≠ [i]) →
      n.material = Material.bakedMaterial)

/-- The value stored for an X or Z coordinate from the draw `r` (lines 109 and
111). -/
def spreadXZ (R : Rounding) (r : ℚ) : ℚ :=
  R.fl32 (R.fl64 (R.fl64 (r - 1 / 2) * 4))

/-- The value stored for a Y coordinate from the draw `r` (line 110). -/
def spreadY (R : Rounding) (r : ℚ) : ℚ :=
  R.fl32 (R.fl64 (r * (3 / 2)))

/-- The state of the generation loop after `k` iterations out of `count`. -/
def fireFliesAfter (R : Rounding) (random : Nat → ℚ) (count k : Nat) : FireFlies :=
  (List.range k).foldl (fireFliesBody R random)
    ⟨Float32Array.create (count * 3), Float32Array.create count, 0⟩

/-- Whether an event is the completion of the load. -/
def Event.isLoad : Event → Bool
  | Event.load _ => true
  | _ => false

/-! ## Sample inputs -/

/-- Rounding toward minus infinity onto the multiples of `2 ^ (-bits)`. -/
def roundDown (bits : Nat) (q : ℚ) : ℚ :=
  (⌊q * 2 ^ bits⌋ : ℚ) / 2 ^ bits

/-- An arithmetic that rounds for real: `b64 + 1` binary digits after the point
for numbers and `b32 + 1` for the elements of a `Float32Array`. -/
def gridArithmetic (b64 b32 : Nat) : Rounding where
  fl64 := roundDown (b64 + 1)
  fl32 := roundDown (b32 + 1)
  fl64_mono := by
    intro a b hab
    unfold roundDown
    have hpos : (0 : ℚ) < 2 ^ (b64 + 1) := by positivity
    apply div_le_div_of_nonneg_right _ hpos.le
    exact_mod_cast Int.floor_mono (mul_le_mul_of_nonneg_right hab hpos.le)
  fl32_mono := by
    intro a b hab
    unfold roundDown
    have hpos : (0 : ℚ) < 2 ^ (b32 + 1) := by positivity
    apply div_le_div_of_nonneg_right _ hpos.le
    exact_mod_cast Int.floor_mono (mul_le_mul_of_nonneg_right hab hpos.le)
  fl64_exact := by
    intro k _ _
    unfold roundDown
    have hpos : (0 : ℚ) < 2 ^ b64 := by positivity
    have e : (k : ℚ) / 2 * 2 ^ (b64 + 1) = ((k * 2 ^ b64 : ℤ) : ℚ) := by
      push_cast; rw [pow_succ]; ring
    rw [e, Int.floor_intCast]
    push_cast; rw [pow_succ]; field_simp; ring
  fl32_exact := by
    intro k _ _
    unfold roundDown
    have hpos : (0 : ℚ) < 2 ^ b32 := by positivity
    have e : (k : ℚ) / 2 * 2 ^ (b32 + 1) = ((k * 2 ^ b32 : ℤ) : ℚ) := by
      push_cast; rw [pow_succ]; ring
    rw [e, Int.floor_intCast]
    push_cast; rw [pow_succ]; field_simp; ring

/-- A coarse arithmetic: ten binary digits after the point for numbers, three
for the elements of a `Float32Array`. -/
def coarseArithmetic : Rounding :=
  gridArithmetic 9 2

/-- A stream of draws in `(0, 1/2]`. -/
def sampleDraws (k : Nat) : ℚ := 1 / ((k : ℚ) + 2)

/-- The five required nodes one level too deep: children of a group that is the
only child of the root. -/
def deepGraph : Object3D :=
  .mk "Scene" .undefined
    [.mk "portal" .undefined
      [.mk "baked" (.asset 0) [], .mk "poleLightA" (.asset 1) [], .mk "poleLightB" (.asset 1) [],
       .mk "poleLightC" (.asset 1) [], .mk "poleLightD" (.asset 1) [],
       .mk "portalLight" (.asset 2) []]]

/-- The five required children followed by a second child named `poleLightA`. -/
def twinGraph : Object3D :=
  .mk "Scene" .undefined
    [.mk "poleLightA" (.asset 1) [], .mk "poleLightB" (.asset 1) [],
     .mk "poleLightC" (.asset 1) [], .mk "poleLightD" (.asset 1) [],
     .mk "portalLight" (.asset 2) [], .mk "poleLightA" (.asset 1) []]

/-- The five required children in another order, a sixth child with a subtree,
and a second node named `poleLightA` below that child. -/
def shuffledGraph : Object3D :=
  .mk "Scene" .undefined
    [.mk "portalLight" (.asset 2) [], .mk "poleLightD" (.asset 1) [],
     .mk "baked" (.asset 0) [.mk "poleLightA" (.asset 3) []],
     .mk "poleLightB" (.asset 1) [], .mk "poleLightA" (.asset 1) [],
     .mk "poleLightC" (.asset 1) []]

/-- A graph in which no node is named `portalLight`. -/
def noPortalGraph : Object3D :=
  .mk "Scene" .undefined
    [.mk "poleLightA" (.asset 1) [], .mk "poleLightB" (.asset 1) [],
     .mk "poleLightC" (.asset 1) [], .mk "poleLightD" (.asset 1) [],
     .mk "baked" (.asset 0) []]

/-- A graph whose `poleLightC` is the root and whose `portalLight` is a
grandchild. -/
def misplacedGraph : Object3D :=
  .mk "poleLightC" .undefined
    [.mk "poleLightA" (.asset 1) [], .mk "poleLightB" (.asset 1) [],
     .mk "poleLightD" (.asset 1) [.mk "portalLight" (.asset 2) []]]

/-- The fixture of the end-to-end property: five leaf children, in an order
other than the lookup order. -/
def fixtureGraph : Object3D :=
  .mk "Scene" .undefined
    [.mk "portalLight" (.asset 2) [], .mk "poleLightC" (.asset 1) [],
     .mk "poleLightA" (.asset 1) [], .mk "poleLightD" (.asset 1) [],
     .mk "poleLightB" (.asset 1) []]

/-! ## Lemmas on the graph operations -/

namespace Object3D

theorem traverseChildren_eq_map (v : Object3D → Material) (cs : List Object3D) :
    traverseChildren v cs = cs.map (traverse v) := by
  induction cs with
  | nil => simp [traverseChildren]
  | cons c cs ih => simp [traverseChildren, ih]

@[simp] theorem name_traverse (v : Object3D → Material) (g : Object3D) :
    (traverse v g).name = g.name := by
  cases g; simp [traverse, name]

@[simp] theorem material_traverse (v : Object3D → Material) (g : Object3D) :
    (traverse v g).material = v g := by
  cases g; simp [traverse, material]

@[simp] theorem children_traverse (v : Object3D → Material) (g : Object3D) :
    (traverse v g).children = g.children.map (traverse v) := by
  cases g; simp [traverse, children, traverseChildren_eq_map]

theorem findIdx?_map_of_comp {α β : Type} (f : α → β) (q : β → Bool) (xs : List α) (s : Nat) :
    (xs.map f).findIdx? q s = xs.findIdx? (fun x => q (f x)) s := by
  induction xs generalizing s with
  | nil => simp
  | cons x xs ih => simp [List.findIdx?_cons, ih]

@[simp] theorem find_traverse (v : Object3D → Material) (g : Object3D) (target : String) :
    find (traverse v g) target = find g target := by
  simp [find, findIdx?_map_of_comp]

theorem nodeAt_traverse (v : Object3D → Material) (g : Object3D) (p : List Nat) :
    nodeAt (traverse v g) p = (nodeAt g p).map (traverse v) := by
  induction p generalizing g with
  | nil => simp [nodeAt]
  | cons i p ih =>
    simp only [nodeAt, children_traverse, List.getElem?_map]
    cases h : g.children[i]? with
    | none => simp
    | some c => simp [ih]

@[simp] theorem nameAt_traverse (v : Object3D → Material) (g : Object3D) (p : List Nat) :
    nameAt (traverse v g) p = nameAt g p := by
  simp [nameAt, nodeAt_traverse, Option.map_map, Function.comp_def]

@[simp] theorem materialAt_traverse (v : Object3D → Material) (g : Object3D) (p : List Nat) :
    materialAt (traverse v g) p = (nodeAt g p).map v := by
  simp [materialAt, nodeAt_traverse, Option.map_map, Function.comp_def]

@[simp] theorem name_setMaterial (m : Material) (c : Object3D) : (setMaterial m c).name = c.name := by
  cases c; rfl

@[simp] theorem material_setMaterial (m : Material) (c : Object3D) :
    (setMaterial m c).material = m := by
  cases c; rfl

@[simp] theorem children_setMaterial (m : Material) (c : Object3D) :
    (setMaterial m c).children = c.children := by
  cases c; rfl

@[simp] theorem name_assignChildMaterial (g : Object3D) (i : Nat) (m : Material) :
    (assignChildMaterial g i m).name = g.name := by
  cases g; rfl

@[simp] theorem material_assignChildMaterial (g : Object3D) (i : Nat) (m : Material) :
    (assignChildMaterial g i m).material = g.material := by
  cases g; rfl

@[simp] theorem children_assignChildMaterial (g : Object3D) (i : Nat) (m : Material) :
    (assignChildMaterial g i m).children = g.children.modify (setMaterial m) i := by
  cases g; rfl

theorem nodeAt_setMaterial_cons (m : Material) (c : Object3D) (j : Nat) (q : List Nat) :
    nodeAt (setMaterial m c) (j :: q) = nodeAt c (j :: q) := by
  simp [nodeAt]

@[simp] theorem nameAt_assignChildMaterial (g : Object3D) (i : Nat) (m : Material) (p : List Nat) :
    nameAt (assignChildMaterial g i m) p = nameAt g p := by
  cases p with
  | nil => simp [nameAt, nodeAt]
  | cons j q =>
    simp only [nameAt, nodeAt, children_assignChildMaterial, List.getElem?_modify]
    cases h : g.children[j]? with
    | none => simp
    | some c =>
      by_cases hij : i = j
      · cases q with
        | nil => simp [hij, nodeAt]
        | cons k q => simp [hij, nodeAt_setMaterial_cons]
      · simp [hij]

theorem materialAt_assignChildMaterial (g : Object3D) (i : Nat) (m : Material) (p : List Nat) :
    materialAt (assignChildMaterial g i m) p =
      if p = [i] then (materialAt g p).map (fun _ => m) else materialAt g p := by
  cases p with
  | nil => simp [materialAt, nodeAt]
  | cons j q =>
    simp only [materialAt, nodeAt, children_assignChildMaterial, List.getElem?_modify]
    cases h : g.children[j]? with
    | none => simp
    | some c =>
      by_cases hij : i = j
      · cases q with
        | nil => simp [hij, nodeAt]
        | cons k q => simp [hij, nodeAt_setMaterial_cons]
      · have : ¬ (j :: q = [i]) := by
          intro hc; cases hc; exact hij rfl
        simp [hij, this]


theorem find_eq_none_iff (g : Object3D) (target : String) :
    find g target = none ↔ ∀ c ∈ g.children, c.name ≠ target := by
  simp [find, List.findIdx?_eq_none_iff]

theorem find_isSome_of_mem (g : Object3D) (target : String)
    (h : ∃ c ∈ g.children, c.name = target) : ∃ i, find g target = some i := by
  cases hf : find g target with
  | some i => exact ⟨i, rfl⟩
  | none =>
    obtain ⟨c, hc, hn⟩ := h
    exact absurd hn ((find_eq_none_iff g target).1 hf c hc)

theorem find_eq_some_iff (g : Object3D) (target : String) (i : Nat) :
    find g target = some i ↔
      ∃ h : i < g.children.length, (g.children[i]).name = target ∧
        ∀ j (hj : j < i), (g.children[j]).name ≠ target := by
  simp [find, List.findIdx?_eq_some_iff_getElem]

theorem find_inj (g : Object3D) (s t : String) (i : Nat)
    (hs : find g s = some i) (ht : find g t = some i) : s = t := by
  obtain ⟨_, h1, _⟩ := (find_eq_some_iff g s i).1 hs
  obtain ⟨_, h2, _⟩ := (find_eq_some_iff g t i).1 ht
  exact h1.symm.trans h2

theorem nameAt_of_find (g : Object3D) (target : String) (i : Nat)
    (h : find g target = some i) : nameAt g [i] = some target := by
  obtain ⟨hi, h1, _⟩ := (find_eq_some_iff g target i).1 h
  simp [nameAt, nodeAt, List.getElem?_eq_getElem hi, h1]

theorem find_congr (g g' : Object3D) (h : g'.children.map name = g.children.map name)
    (target : String) : find g' target = find g target := by
  have e : ∀ x : Object3D, x.children.findIdx? (fun child => child.name == target)
      = (x.children.map name).findIdx? (fun s => s == target) := by
    intro x; rw [findIdx?_map_of_comp]
  simp only [find, e, h]

end Object3D

open Object3D

theorem loadCallback_error_eq (scene : List SceneChild) (g : Object3D) :
    (loadCallback scene g).error =
      if find g "poleLightA" = none then some "poleLightAMesh"
      else if find g "poleLightB" = none then some "poleLightBMesh"
      else if find g "poleLightC" = none then some "poleLightCMesh"
      else if find g "poleLightD" = none then some "poleLightDMesh"
      else if find g "portalLight" = none then some "portalLightMesh"
      else none := by
  simp only [loadCallback, find_traverse]
  cases find g "poleLightA" <;> cases find g "poleLightB" <;> cases find g "poleLightC" <;>
    cases find g "poleLightD" <;> cases find g "portalLight" <;> simp

theorem boundTo_baked (g : Object3D) : BoundTo g (baked g) [] := by
  refine ⟨fun p => by simp [baked], ?_⟩
  intro p n hn
  have hm : materialAt (baked g) p = some n.material := by simp [materialAt, hn]
  simp only [baked, materialAt_traverse] at hm
  refine ⟨by simp, fun _ => ?_⟩
  cases hg : nodeAt g p with
  | none => simp [hg] at hm
  | some n0 => simp [hg] at hm; exact hm.symm

theorem boundTo_assign (g G : Object3D) (names : List String) (target : String) (i : Nat)
    (hG : BoundTo g G names) (hi : find g target = some i) :
    BoundTo g (assignChildMaterial G i (bindingRule target)) (names ++ [target]) := by
  obtain ⟨hname, hmat⟩ := hG
  refine ⟨fun p => by simp [hname], ?_⟩
  intro p n hn
  have hm : materialAt (assignChildMaterial G i (bindingRule target)) p = some n.material := by
    simp [materialAt, hn]
  rw [materialAt_assignChildMaterial] at hm
  by_cases hp : p = [i]
  · have hnm : n.material = bindingRule target := by
      rw [if_pos hp] at hm
      cases h0 : materialAt G p with
      | none => simp [h0] at hm
      | some m0 => simp [h0] at hm; exact hm.symm
    refine ⟨?_, ?_⟩
    · intro t _ j hj hpj
      have hij : j = i := by
        rw [hp] at hpj; simpa using hpj.symm
      have : t = target := find_inj g t target i (hij ▸ hj) hi
      rw [this]; exact hnm
    · intro hall
      exact absurd hp (hall target (by simp) i hi)
  · rw [if_neg hp] at hm
    cases h0 : nodeAt G p with
    | none => simp [materialAt, h0] at hm
    | some n0 =>
      have hnn : n.material = n0.material := by
        simp [materialAt, h0] at hm; exact hm.symm
      obtain ⟨h1, h2⟩ := hmat p n0 h0
      refine ⟨?_, ?_⟩
      · intro t ht j hj hpj
        rcases List.mem_append.1 ht with ht | ht
        · rw [hnn]; exact h1 t ht j hj hpj
        · have : t = target := by simpa using ht
          subst this
          rw [hi] at hj
          cases hj
          exact absurd hpj hp
      · intro hall
        rw [hnn]
        exact h2 (fun t ht j hj => hall t (List.mem_append.2 (Or.inl ht)) j hj)

theorem loadCallback_boundTo (scene : List SceneChild) (g : Object3D) :
    BoundTo g (loadCallback scene g).gltfScene (boundNames g) := by
  have rA : bindingRule "poleLightA" = Material.poleLightMaterial := by decide
  have rB : bindingRule "poleLightB" = Material.poleLightMaterial := by decide
  have rC : bindingRule "poleLightC" = Material.poleLightMaterial := by decide
  have rD : bindingRule "poleLightD" = Material.poleLightMaterial := by decide
  have rP : bindingRule "portalLight" = Material.portalLightMaterial := by decide
  have h0 := boundTo_baked g
  cases hA : find g "poleLightA" with
  | none =>
    have e : boundNames g = [] := by
      simp [boundNames, requiredNames, poleLightNames, List.takeWhile, hA]
    simpa [loadCallback, find_traverse, hA, e, baked] using h0
  | some a =>
  have h1 := boundTo_assign g _ _ _ a h0 hA
  rw [rA] at h1
  cases hB : find g "poleLightB" with
  | none =>
    have e : boundNames g = ["poleLightA"] := by
      simp [boundNames, requiredNames, poleLightNames, List.takeWhile, hA, hB]
    simpa [loadCallback, find_traverse, hA, hB, e, baked] using h1
  | some b =>
  have h2 := boundTo_assign g _ _ _ b h1 hB
  rw [rB] at h2
  cases hC : find g "poleLightC" with
  | none =>
    have e : boundNames g = ["poleLightA", "poleLightB"] := by
      simp [boundNames, requiredNames, poleLightNames, List.takeWhile, hA, hB, hC]
    simpa [loadCallback, find_traverse, hA, hB, hC, e, baked] using h2
  | some c =>
  have h3 := boundTo_assign g _ _ _ c h2 hC
  rw [rC] at h3
  cases hD : find g "poleLightD" with
  | none =>
    have e : boundNames g = ["poleLightA", "poleLightB", "poleLightC"] := by
      simp [boundNames, requiredNames, poleLightNames, List.takeWhile, hA, hB, hC, hD]
    simpa [loadCallback, find_traverse, hA, hB, hC, hD, e, baked] using h3
  | some d =>
  have h4 := boundTo_assign g _ _ _ d h3 hD
  rw [rD] at h4
  cases hP : find g "portalLight" with
  | none =>
    have e : boundNames g = ["poleLightA", "poleLightB", "poleLightC", "poleLightD"] := by
      simp [boundNames, requiredNames, poleLightNames, List.takeWhile, hA, hB, hC, hD, hP]
    simpa [loadCallback, find_traverse, hA, hB, hC, hD, hP, e, baked] using h4
  | some p =>
  have h5 := boundTo_assign g _ _ _ p h4 hP
  rw [rP] at h5
  have e : boundNames g = requiredNames := by
    simp [boundNames, requiredNames, poleLightNames, List.takeWhile, hA, hB, hC, hD, hP]
  simpa [loadCallback, find_traverse, hA, hB, hC, hD, hP, e, baked, requiredNames,
    poleLightNames] using h5

theorem bindingRule_of_required (target : String) (h : target ∈ requiredNames) :
    (bindingRule target = Material.poleLightMaterial ↔ target ∈ poleLightNames) ∧
    (bindingRule target = Material.portalLightMaterial ↔ target = "portalLight") ∧
    bindingRule target ≠ Material.bakedMaterial := by
  simp only [requiredNames, poleLightNames, List.cons_append, List.nil_append, List.mem_cons,
    List.mem_singleton, List.not_mem_nil, or_false] at h
  rcases h with rfl | rfl | rfl | rfl | rfl <;> decide

theorem boundNames_eq_required_iff (g : Object3D) :
    boundNames g = requiredNames ↔ ∀ target ∈ requiredNames, ∃ c ∈ g.children, c.name = target := by
  constructor
  · intro h target ht
    have : ∀ t ∈ requiredNames.takeWhile (fun target => (find g target).isSome),
        (find g t).isSome = true := fun t ht =>
      @List.mem_takeWhile_imp _ (fun target => (find g target).isSome) _ _ ht
    have hs := this target (by rw [← boundNames, h]; exact ht)
    cases hf : find g target with
    | none => simp [hf] at hs
    | some i =>
      obtain ⟨hi, hn, _⟩ := (find_eq_some_iff g target i).1 hf
      exact ⟨g.children[i], List.getElem_mem _, hn⟩
  · intro h
    unfold boundNames
    rw [List.takeWhile_eq_self_iff]
    intro t ht
    obtain ⟨i, hi⟩ := find_isSome_of_mem g t (h t ht)
    simp [hi]

theorem loadCallback_outcome (scene : List SceneChild) (g : Object3D) :
    ((loadCallback scene g).error = none ↔ boundNames g = requiredNames) ∧
    ((loadCallback scene g).error = none →
      (loadCallback scene g).scene =
        scene ++ [SceneChild.gltfScene (loadCallback scene g).gltfScene]) ∧
    ((loadCallback scene g).error ≠ none → (loadCallback scene g).scene = scene) ∧
    (loadCallback scene g).error =
      (requiredNames[(boundNames g).length]?).map (fun target => target ++ "Mesh") := by
  simp only [loadCallback, find_traverse, boundNames, requiredNames, poleLightNames, sceneAdd]
  cases hA : find g "poleLightA" <;> cases hB : find g "poleLightB" <;>
    cases hC : find g "poleLightC" <;> cases hD : find g "poleLightD" <;>
    cases hP : find g "portalLight" <;>
    simp [List.takeWhile, hA, hB, hC, hD, hP]

/-- C1, as stated, fails on two graphs that contain nodes of all five names.
In `deepGraph` the five nodes are grandchildren of the root: the callback raises
on line 89.  In `twinGraph` two children are named `poleLightA`: the callback
completes and the second of them holds `bakedMaterial`. -/
theorem named_nodes_not_all_bound :
    ((∀ target ∈ requiredNames, ∃ n ∈ nodes deepGraph, n.name = target) ∧
      (loadCallback [] deepGraph).error = some "poleLightAMesh") ∧
    ((∀ target ∈ requiredNames, ∃ n ∈ nodes twinGraph, n.name = target) ∧
      (loadCallback [] twinGraph).error = none ∧
      ∃ n ∈ nodes (loadCallback [] twinGraph).gltfScene,
        n.name = "poleLightA" ∧ n.material = Material.bakedMaterial) := by
  decide

namespace Object3D

theorem mem_nodes_self (g : Object3D) : g ∈ nodes g := by
  cases g; simp [nodes]

theorem mem_nodesOfChildren (cs : List Object3D) (c : Object3D) (h : c ∈ cs) :
    c ∈ nodesOfChildren cs := by
  induction cs with
  | nil => cases h
  | cons d ds ih =>
    simp only [nodesOfChildren, List.mem_append]
    rcases List.mem_cons.1 h with rfl | h
    · exact Or.inl (mem_nodes_self _)
    · exact Or.inr (ih h)

theorem mem_nodes_of_mem_children (g c : Object3D) (h : c ∈ g.children) : c ∈ nodes g := by
  cases g with
  | mk n m cs =>
    simp only [nodes, List.mem_cons]
    exact Or.inr (mem_nodesOfChildren cs c h)

theorem name_of_nodeAt (G : Object3D) (p : List Nat) (n : Object3D) (s : String)
    (hn : nodeAt G p = some n) (hs : nameAt G p = some s) : n.name = s := by
  simpa [nameAt, hn] using hs

theorem exists_nodeAt_of_nameAt (G : Object3D) (p : List Nat) (s : String)
    (hs : nameAt G p = some s) : ∃ n, nodeAt G p = some n ∧ n.name = s := by
  cases h : nodeAt G p with
  | none => simp [nameAt, h] at hs
  | some n => exact ⟨n, rfl, by simpa [nameAt, h] using hs⟩

end Object3D

theorem boundNames_cases (g : Object3D) :
    boundNames g = requiredNames ∨
      ∃ k target, requiredNames[k]? = some target ∧ find g target = none ∧
        boundNames g = requiredNames.take k := by
  simp only [boundNames, requiredNames, poleLightNames]
  cases hA : find g "poleLightA" with
  | none => exact Or.inr ⟨0, "poleLightA", by simp, hA, by simp [List.takeWhile, hA]⟩
  | some a =>
  cases hB : find g "poleLightB" with
  | none => exact Or.inr ⟨1, "poleLightB", by simp, hB, by simp [List.takeWhile, hA, hB]⟩
  | some b =>
  cases hC : find g "poleLightC" with
  | none => exact Or.inr ⟨2, "poleLightC", by simp, hC, by simp [List.takeWhile, hA, hB, hC]⟩
  | some c =>
  cases hD : find g "poleLightD" with
  | none =>
    exact Or.inr ⟨3, "poleLightD", by simp, hD, by simp [List.takeWhile, hA, hB, hC, hD]⟩
  | some d =>
  cases hP : find g "portalLight" with
  | none =>
    exact Or.inr ⟨4, "portalLight", by simp, hP, by simp [List.takeWhile, hA, hB, hC, hD, hP]⟩
  | some p => exact Or.inl (by simp [List.takeWhile, hA, hB, hC, hD, hP])

/-- In the result of the callback, the first child of every bound name exists and
holds the material of that name. -/
theorem bound_child_material (scene : List SceneChild) (g : Object3D) (target : String)
    (ht : target ∈ boundNames g) :
    ∃ i n, find g target = some i ∧ nodeAt (loadCallback scene g).gltfScene [i] = some n ∧
      n.name = target ∧ n.material = bindingRule target := by
  have hs : (find g target).isSome = true :=
    @List.mem_takeWhile_imp _ (fun target => (find g target).isSome) _ _ ht
  cases hf : find g target with
  | none => simp [hf] at hs
  | some i =>
    obtain ⟨hname, hmat⟩ := loadCallback_boundTo scene g
    have h1 : nameAt (loadCallback scene g).gltfScene [i] = some target := by
      rw [hname]; exact nameAt_of_find g target i hf
    obtain ⟨n, hn, hnn⟩ := exists_nodeAt_of_nameAt _ _ _ h1
    exact ⟨i, n, rfl, hn, hnn, (hmat [i] n hn).1 target ht i hf rfl⟩

/-- C1 (amended): for every loaded graph whose root has, among its immediate
children and in any order, nodes named `poleLightA`, `poleLightB`,
`poleLightC`, `poleLightD` and `portalLight`, the callback completes, keeps the
shape and the names of the graph, and afterwards: every node whose name is none
of the five holds `bakedMaterial`; the nodes holding `poleLightMaterial` are
exactly the first child of each pole-light name; the node holding
`portalLightMaterial` is exactly the first child named `portalLight`; and every
other node holds `bakedMaterial`. -/
theorem loadCallback_binds_first_children (scene : List SceneChild) (g : Object3D)
    (h : ∀ target ∈ requiredNames, ∃ c ∈ g.children, c.name = target) :
    (loadCallback scene g).error = none ∧
    (∀ p, nameAt (loadCallback scene g).gltfScene p = nameAt g p) ∧
    ∀ p n, nodeAt (loadCallback scene g).gltfScene p = some n →
      (n.name ∉ requiredNames → n.material = Material.bakedMaterial) ∧
      (n.material = Material.poleLightMaterial ↔
        ∃ target ∈ poleLightNames, ∃ i, find g target = some i ∧ p = [i]) ∧
      (n.material = Material.portalLightMaterial ↔
        ∃ i, find g "portalLight" = some i ∧ p = [i]) ∧
      (n.material = Material.bakedMaterial ↔
        ∀ target ∈ requiredNames, ∀ i, find g target = some i → p ≠ [i]) := by
  have hb : boundNames g = requiredNames := (boundNames_eq_required_iff g).2 h
  obtain ⟨hname, hmat⟩ := loadCallback_boundTo scene g
  rw [hb] at hmat
  refine ⟨(loadCallback_outcome scene g).1.2 hb, hname, ?_⟩
  intro p n hn
  obtain ⟨h1, h2⟩ := hmat p n hn
  by_cases hex : ∃ target ∈ requiredNames, ∃ i, find g target = some i ∧ p = [i]
  · obtain ⟨t, ht, i, hi, hp⟩ := hex
    have hm : n.material = bindingRule t := h1 t ht i hi hp
    obtain ⟨r1, r2, r3⟩ := bindingRule_of_required t ht
    have hnt : n.name = t := by
      apply name_of_nodeAt _ p n t hn
      rw [hname, hp]; exact nameAt_of_find g t i hi
    have huniq : ∀ t' i', find g t' = some i' → p = [i'] → t' = t := by
      intro t' i' hi' hp'
      have : i' = i := by rw [hp] at hp'; simpa using hp'.symm
      exact find_inj g t' t i (this ▸ hi') hi
    refine ⟨fun hno => absurd (hnt ▸ ht) hno, ?_, ?_, ?_⟩
    · rw [hm, r1]
      constructor
      · intro htp; exact ⟨t, htp, i, hi, hp⟩
      · rintro ⟨t', ht', i', hi', hp'⟩
        exact huniq t' i' hi' hp' ▸ ht'
    · rw [hm, r2]
      constructor
      · intro htp; exact ⟨i, htp ▸ hi, hp⟩
      · rintro ⟨i', hi', hp'⟩
        exact (huniq _ i' hi' hp').symm
    · rw [hm]
      constructor
      · intro hbk; exact absurd hbk r3
      · intro hall; exact absurd hp (hall t ht i hi)
  · have hall : ∀ target ∈ requiredNames, ∀ i, find g target = some i → p ≠ [i] :=
      fun t ht i hi hp => hex ⟨t, ht, i, hi, hp⟩
    have hm : n.material = Material.bakedMaterial := h2 hall
    refine ⟨fun _ => hm, ?_, ?_, ?_⟩
    · rw [hm]
      constructor
      · intro hc; cases hc
      · rintro ⟨t, ht, i, hi, hp⟩
        exact absurd hp (hall t (by simp [requiredNames, ht]) i hi)
    · rw [hm]
      constructor
      · intro hc; cases hc
      · rintro ⟨i, hi, hp⟩
        exact absurd hp (hall _ (by simp [requiredNames]) i hi)
    · exact ⟨fun _ => hall, fun _ => hm⟩

theorem loadCallback_binds_first_children_witness :
    (∀ target ∈ requiredNames, ∃ c ∈ shuffledGraph.children, c.name = target) ∧
    (loadCallback [] shuffledGraph).error = none ∧
    ∀ p n, nodeAt (loadCallback [] shuffledGraph).gltfScene p = some n →
      (n.material = Material.poleLightMaterial ↔
        ∃ target ∈ poleLightNames, ∃ i, find shuffledGraph target = some i ∧ p = [i]) :=
  ⟨by decide,
   (loadCallback_binds_first_children [] shuffledGraph (by decide)).1,
   fun p n hn =>
     ((loadCallback_binds_first_children [] shuffledGraph (by decide)).2.2 p n hn).2.1⟩

/-- C2: for every loaded graph in which one of the five required names occurs
on no node, the callback raises instead of completing and the render scene is
left as it was; and on no graph does the callback complete with a required
target left without its material: when it completes, the first child of each
required name exists and holds the material bound to that name. -/
theorem loadCallback_raises_when_name_absent (scene : List SceneChild) (g : Object3D)
    (h : ∃ target ∈ requiredNames, ∀ n ∈ nodes g, n.name ≠ target) :
    (loadCallback scene g).error ≠ none ∧
    (loadCallback scene g).scene = scene ∧
    ∀ g' : Object3D, (loadCallback scene g').error = none →
      ∀ target ∈ requiredNames, ∃ i n, find g' target = some i ∧
        nodeAt (loadCallback scene g').gltfScene [i] = some n ∧
        n.name = target ∧ n.material = bindingRule target := by
  have herr : (loadCallback scene g).error ≠ none := by
    intro he
    have hb := (loadCallback_outcome scene g).1.1 he
    obtain ⟨t, ht, hno⟩ := h
    obtain ⟨c, hc, hcn⟩ := (boundNames_eq_required_iff g).1 hb t ht
    exact hno c (mem_nodes_of_mem_children g c hc) hcn
  refine ⟨herr, (loadCallback_outcome scene g).2.2.1 herr, ?_⟩
  intro g' he t ht
  have hb := (loadCallback_outcome scene g').1.1 he
  exact bound_child_material scene g' t (hb ▸ ht)

theorem loadCallback_raises_when_name_absent_witness :
    (∃ target ∈ requiredNames, ∀ n ∈ nodes noPortalGraph, n.name ≠ target) ∧
    (loadCallback [SceneChild.fireFlies, SceneChild.camera] noPortalGraph).error
      = some "portalLightMesh" ∧
    (loadCallback [SceneChild.fireFlies, SceneChild.camera] noPortalGraph).error ≠ none :=
  ⟨by decide, by decide,
   (loadCallback_raises_when_name_absent [SceneChild.fireFlies, SceneChild.camera]
      noPortalGraph (by decide)).1⟩

/-- C9: lookup is by exact name among the immediate children of the root only.
For every graph in which a required name is borne by no immediate child (it may
be borne by the root or by a deeper node), the lookup of that name yields
`undefined` and the callback raises, leaving the scene as it was; every node
bearing that name, and every node that is not an immediate child, holds
`bakedMaterial`; and the error is the one raised on any graph whose children
bear the same names, so nodes elsewhere count as absent. -/
theorem lookup_among_immediate_children_only (scene : List SceneChild) (g : Object3D)
    (target : String) (hreq : target ∈ requiredNames)
    (h : ∀ c ∈ g.children, c.name ≠ target) :
    find g target = none ∧
    (loadCallback scene g).error ≠ none ∧
    (loadCallback scene g).scene = scene ∧
    (∀ p n, nodeAt (loadCallback scene g).gltfScene p = some n → n.name = target →
      n.material = Material.bakedMaterial) ∧
    (∀ p n, nodeAt (loadCallback scene g).gltfScene p = some n → p.length ≠ 1 →
      n.material = Material.bakedMaterial) ∧
    ∀ g' : Object3D, g'.children.map name = g.children.map name →
      (loadCallback scene g').error = (loadCallback scene g).error := by
  have hnone : find g target = none := (find_eq_none_iff g target).2 h
  have herr : (loadCallback scene g).error ≠ none := by
    intro he
    have hb := (loadCallback_outcome scene g).1.1 he
    obtain ⟨c, hc, hcn⟩ := (boundNames_eq_required_iff g).1 hb target hreq
    exact h c hc hcn
  obtain ⟨hname, hmat⟩ := loadCallback_boundTo scene g
  refine ⟨hnone, herr, (loadCallback_outcome scene g).2.2.1 herr, ?_, ?_, ?_⟩
  · intro p n hn hnt
    apply (hmat p n hn).2
    intro t _ i hi hp
    have : n.name = t := by
      apply name_of_nodeAt _ p n t hn
      rw [hname, hp]; exact nameAt_of_find g t i hi
    rw [← this, hnt, hnone] at hi
    cases hi
  · intro p n hn hlen
    apply (hmat p n hn).2
    intro t _ i _ hp
    exact hlen (by rw [hp]; rfl)
  · intro g' hg'
    rw [loadCallback_error_eq, loadCallback_error_eq]
    simp only [find_congr g g' hg']

theorem lookup_among_immediate_children_only_witness :
    (∃ n ∈ nodes misplacedGraph, n.name = "portalLight") ∧
    (∀ c ∈ misplacedGraph.children, c.name ≠ "portalLight") ∧
    (loadCallback [] misplacedGraph).error ≠ none ∧
    (loadCallback [] misplacedGraph).error = some "poleLightCMesh" :=
  ⟨by decide, by decide,
   (lookup_among_immediate_children_only [] misplacedGraph "portalLight" (by decide)
      (by decide)).2.1,
   by decide⟩

/-- C10: when the callback raises, the render scene is unchanged, while the
loaded graph has been mutated: with `target` the first required name (in the
order A, B, C, D, portal) that no child bears, the first child of every required
name listed before `target` holds its special material and every other node
holds `bakedMaterial`. -/
theorem failed_load_leaves_scene_unchanged (scene : List SceneChild) (g : Object3D)
    (h : (loadCallback scene g).error ≠ none) :
    (loadCallback scene g).scene = scene ∧
    (∀ p, nameAt (loadCallback scene g).gltfScene p = nameAt g p) ∧
    ∃ k target, requiredNames[k]? = some target ∧ find g target = none ∧
      (loadCallback scene g).error = some (target ++ "Mesh") ∧
      (∀ t ∈ requiredNames.take k, ∃ i n, find g t = some i ∧
        nodeAt (loadCallback scene g).gltfScene [i] = some n ∧ n.name = t ∧
        n.material = bindingRule t) ∧
      ∀ p n, nodeAt (loadCallback scene g).gltfScene p = some n →
        (∀ t ∈ requiredNames.take k, ∀ i, find g t = some i → p ≠ [i]) →
        n.material = Material.bakedMaterial := by
  obtain ⟨hname, hmat⟩ := loadCallback_boundTo scene g
  refine ⟨(loadCallback_outcome scene g).2.2.1 h, hname, ?_⟩
  rcases boundNames_cases g with hb | ⟨k, target, hk, hnone, hb⟩
  · exact absurd ((loadCallback_outcome scene g).1.2 hb) h
  · have hlen : (boundNames g).length = k := by
      rw [hb, List.length_take]
      have : k < requiredNames.length := by
        rcases Nat.lt_or_ge k requiredNames.length with hlt | hge
        · exact hlt
        · rw [List.getElem?_eq_none hge] at hk; cases hk
      omega
    refine ⟨k, target, hk, hnone, ?_, ?_, ?_⟩
    · rw [(loadCallback_outcome scene g).2.2.2, hlen, hk]; rfl
    · intro t ht
      exact bound_child_material scene g t (hb ▸ ht)
    · intro p n hn hall
      exact (hmat p n hn).2 (fun t ht i hi => hall t (hb ▸ ht) i hi)

theorem failed_load_leaves_scene_unchanged_witness :
    (loadCallback [SceneChild.fireFlies, SceneChild.camera] misplacedGraph).error ≠ none ∧
    (loadCallback [SceneChild.fireFlies, SceneChild.camera] misplacedGraph).scene
      = [SceneChild.fireFlies, SceneChild.camera] ∧
    (loadCallback [SceneChild.fireFlies, SceneChild.camera] misplacedGraph).gltfScene =
      .mk "poleLightC" .bakedMaterial
        [.mk "poleLightA" .poleLightMaterial [], .mk "poleLightB" .poleLightMaterial [],
         .mk "poleLightD" .bakedMaterial [.mk "portalLight" .bakedMaterial []]] :=
  ⟨by decide,
   (failed_load_leaves_scene_unchanged [SceneChild.fireFlies, SceneChild.camera]
      misplacedGraph (by decide)).1,
   rfl⟩

theorem fireFliesAfter_succ (R : Rounding) (random : Nat → ℚ) (count k : Nat) :
    fireFliesAfter R random count (k + 1) =
      fireFliesBody R random (fireFliesAfter R random count k) k := by
  simp [fireFliesAfter, List.range_succ, List.foldl_append]

theorem fireFliesAfter_invariant (R : Rounding) (random : Nat → ℚ) (count k : Nat)
    (hk : k ≤ count) :
    (fireFliesAfter R random count k).randomCalls = 4 * k ∧
    (fireFliesAfter R random count k).positionArray.data.length = count * 3 ∧
    (fireFliesAfter R random count k).scaleArray.data.length = count ∧
    (fireFliesAfter R random count k).positionArray.writes = List.range (k * 3) ∧
    (fireFliesAfter R random count k).scaleArray.writes = List.range k ∧
    ∀ j, j < k →
      (fireFliesAfter R random count k).positionArray.data[j * 3]?
        = some (spreadXZ R (random (4 * j))) ∧
      (fireFliesAfter R random count k).positionArray.data[j * 3 + 1]?
        = some (spreadY R (random (4 * j + 1))) ∧
      (fireFliesAfter R random count k).positionArray.data[j * 3 + 2]?
        = some (spreadXZ R (random (4 * j + 2))) ∧
      (fireFliesAfter R random count k).scaleArray.data[j]?
        = some (R.fl32 (random (4 * j + 3))) := by
  induction k with
  | zero => simp [fireFliesAfter, Float32Array.create]
  | succ k ih =>
    obtain ⟨hr, hpl, hsl, hpw, hsw, hdata⟩ := ih (by omega)
    rw [fireFliesAfter_succ]
    refine ⟨?_, ?_, ?_, ?_, ?_, ?_⟩
    · simp [fireFliesBody, hr]; ring
    · simp [fireFliesBody, Float32Array.store, hpl]
    · simp [fireFliesBody, Float32Array.store, hsl]
    · simp only [fireFliesBody, Float32Array.store, hpw]
      have : (k + 1) * 3 = k * 3 + 1 + 1 + 1 := by ring
      rw [this, List.range_succ, List.range_succ, List.range_succ]
      simp
    · simp [fireFliesBody, Float32Array.store, hsw, List.range_succ]
    · intro j hj
      simp only [fireFliesBody, Float32Array.store, List.getElem?_set, List.length_set, hpl, hsl,
        hr]
      rcases Nat.lt_or_ge j k with hlt | hge
      · obtain ⟨h1, h2, h3, h4⟩ := hdata j hlt
        have e1 : ¬ (k * 3 + 2 = j * 3) := by omega
        have e2 : ¬ (k * 3 + 1 = j * 3) := by omega
        have e3 : ¬ (k * 3 + 0 = j * 3) := by omega
        have e4 : ¬ (k * 3 + 2 = j * 3 + 1) := by omega
        have e5 : ¬ (k * 3 + 1 = j * 3 + 1) := by omega
        have e6 : ¬ (k * 3 + 0 = j * 3 + 1) := by omega
        have e7 : ¬ (k * 3 + 2 = j * 3 + 2) := by omega
        have e8 : ¬ (k * 3 + 1 = j * 3 + 2) := by omega
        have e9 : ¬ (k * 3 + 0 = j * 3 + 2) := by omega
        have e10 : ¬ (k = j) := by omega
        simp only [e1, e2, e3, e4, e5, e6, e7, e8, e9, e10, if_false, h1, h2, h3, h4]
        exact ⟨trivial, trivial, trivial, trivial⟩
      · have hjk : j = k := by omega
        subst hjk
        have b0 : j * 3 + 0 < count * 3 := by omega
        have b1 : j * 3 + 1 < count * 3 := by omega
        have b2 : j * 3 + 2 < count * 3 := by omega
        have b3 : j < count := by omega
        have e1 : ¬ (j * 3 + 2 = j * 3) := by omega
        have e2 : ¬ (j * 3 + 1 = j * 3) := by omega
        have e4 : ¬ (j * 3 + 2 = j * 3 + 1) := by omega
        simp [e1, e2, e4, b0, b1, b2, b3, spreadXZ, spreadY]

theorem range_mul_three (k : Nat) :
    List.range (k * 3) = (List.range k).flatMap (fun i => [i * 3 + 0, i * 3 + 1, i * 3 + 2]) := by
  induction k with
  | zero => simp
  | succ k ih =>
    have : (k + 1) * 3 = k * 3 + 1 + 1 + 1 := by ring
    rw [this, List.range_succ, List.range_succ, List.range_succ, ih, @List.range_succ k]
    simp [List.flatMap_append]

theorem count_range (n j : Nat) : (List.range n).count j = if j < n then 1 else 0 := by
  split
  · exact List.count_eq_one_of_mem (List.nodup_range n) (List.mem_range.2 ‹_›)
  · exact List.count_eq_zero.2 (fun h => ‹¬ j < n› (List.mem_range.1 h))

theorem fl64_bounds (R : Rounding) (lo hi : ℤ) (q : ℚ) (hlo : -4 ≤ lo) (hhi : hi ≤ 4)
    (hlh : lo ≤ hi) (h1 : (lo : ℚ) / 2 ≤ q) (h2 : q ≤ (hi : ℚ) / 2) :
    (lo : ℚ) / 2 ≤ R.fl64 q ∧ R.fl64 q ≤ (hi : ℚ) / 2 := by
  constructor
  · rw [← R.fl64_exact lo hlo (by omega)]; exact R.fl64_mono h1
  · rw [← R.fl64_exact hi (by omega) hhi]; exact R.fl64_mono h2

theorem fl32_bounds (R : Rounding) (lo hi : ℤ) (q : ℚ) (hlo : -4 ≤ lo) (hhi : hi ≤ 4)
    (hlh : lo ≤ hi) (h1 : (lo : ℚ) / 2 ≤ q) (h2 : q ≤ (hi : ℚ) / 2) :
    (lo : ℚ) / 2 ≤ R.fl32 q ∧ R.fl32 q ≤ (hi : ℚ) / 2 := by
  constructor
  · rw [← R.fl32_exact lo hlo (by omega)]; exact R.fl32_mono h1
  · rw [← R.fl32_exact hi (by omega) hhi]; exact R.fl32_mono h2

theorem spreadXZ_bounds (R : Rounding) (r : ℚ) (h0 : 0 ≤ r) (h1 : r < 1) :
    -2 ≤ spreadXZ R r ∧ spreadXZ R r ≤ 2 := by
  obtain ⟨a1, a2⟩ := fl64_bounds R (-1) 1 (r - 1 / 2) (by norm_num) (by norm_num) (by norm_num)
    (by push_cast; linarith) (by push_cast; linarith)
  push_cast at a1 a2
  obtain ⟨b1, b2⟩ := fl64_bounds R (-4) 4 (R.fl64 (r - 1 / 2) * 4) (by norm_num) (by norm_num)
    (by norm_num) (by push_cast; linarith) (by push_cast; linarith)
  obtain ⟨c1, c2⟩ := fl32_bounds R (-4) 4 _ (by norm_num) (by norm_num) (by norm_num) b1 b2
  push_cast at c1 c2
  unfold spreadXZ
  constructor <;> linarith

theorem spreadY_bounds (R : Rounding) (r : ℚ) (h0 : 0 ≤ r) (h1 : r < 1) :
    0 ≤ spreadY R r ∧ spreadY R r ≤ 3 / 2 := by
  obtain ⟨b1, b2⟩ := fl64_bounds R 0 3 (r * (3 / 2)) (by norm_num) (by norm_num)
    (by norm_num) (by push_cast; linarith) (by push_cast; linarith)
  obtain ⟨c1, c2⟩ := fl32_bounds R 0 3 _ (by norm_num) (by norm_num) (by norm_num) b1 b2
  push_cast at c1 c2
  unfold spreadY
  constructor <;> linarith

theorem scale_bounds (R : Rounding) (r : ℚ) (h0 : 0 ≤ r) (h1 : r < 1) :
    0 ≤ R.fl32 r ∧ R.fl32 r ≤ 1 := by
  obtain ⟨c1, c2⟩ := fl32_bounds R 0 2 r (by norm_num) (by norm_num) (by norm_num)
    (by push_cast; linarith) (by push_cast; linarith)
  push_cast at c1 c2
  constructor <;> linarith

theorem generateFireFlies_eq (R : Rounding) (random : Nat → ℚ) (count : Nat) :
    generateFireFlies R random count = fireFliesAfter R random count count := rfl

theorem triples_length (f g h : Nat → ℚ) (n : Nat) :
    ((List.range n).flatMap (fun i => [f i, g i, h i])).length = n * 3 := by
  induction n with
  | zero => simp
  | succ n ih =>
    rw [List.range_succ, List.flatMap_append, List.length_append, ih]
    simp
    ring

theorem triples_getElem? (f g h : Nat → ℚ) (n i : Nat) (hi : i < n) :
    ((List.range n).flatMap (fun i => [f i, g i, h i]))[i * 3]? = some (f i) ∧
    ((List.range n).flatMap (fun i => [f i, g i, h i]))[i * 3 + 1]? = some (g i) ∧
    ((List.range n).flatMap (fun i => [f i, g i, h i]))[i * 3 + 2]? = some (h i) := by
  induction n with
  | zero => omega
  | succ n ih =>
    have hlen := triples_length f g h n
    rw [List.range_succ, List.flatMap_append]
    rcases Nat.lt_or_ge i n with hlt | hge
    · obtain ⟨h1, h2, h3⟩ := ih hlt
      refine ⟨?_, ?_, ?_⟩
      · rw [List.getElem?_append_left (by rw [hlen]; omega)]; exact h1
      · rw [List.getElem?_append_left (by rw [hlen]; omega)]; exact h2
      · rw [List.getElem?_append_left (by rw [hlen]; omega)]; exact h3
    · have hin : i = n := by omega
      subst hin
      refine ⟨?_, ?_, ?_⟩
      · rw [List.getElem?_append_right (by rw [hlen]), hlen]
        simp
      · rw [List.getElem?_append_right (by rw [hlen]; omega), hlen]
        have : i * 3 + 1 - i * 3 = 1 := by omega
        simp [this]
      · rw [List.getElem?_append_right (by rw [hlen]; omega), hlen]
        have : i * 3 + 2 - i * 3 = 2 := by omega
        simp [this]

theorem eq_triples_of_getElem? (f g h : Nat → ℚ) (n : Nat) (data : List ℚ)
    (hlen : data.length = n * 3)
    (hdata : ∀ i, i < n → data[i * 3]? = some (f i) ∧ data[i * 3 + 1]? = some (g i) ∧
      data[i * 3 + 2]? = some (h i)) :
    data = (List.range n).flatMap (fun i => [f i, g i, h i]) := by
  apply List.ext_getElem?
  intro j
  rcases Nat.lt_or_ge j (n * 3) with hj | hj
  · have hi : j / 3 < n := by omega
    obtain ⟨a1, a2, a3⟩ := hdata (j / 3) hi
    obtain ⟨b1, b2, b3⟩ := triples_getElem? f g h n (j / 3) hi
    have hc : j % 3 = 0 ∨ j % 3 = 1 ∨ j % 3 = 2 := by omega
    rcases hc with hc | hc | hc
    · have e : j = j / 3 * 3 := by omega
      rw [e, a1, b1]
    · have e : j = j / 3 * 3 + 1 := by omega
      rw [e, a2, b2]
    · have e : j = j / 3 * 3 + 2 := by omega
      rw [e, a3, b3]
  · rw [List.getElem?_eq_none (by omega),
      List.getElem?_eq_none (by rw [triples_length]; exact hj)]

theorem eq_map_range_of_getElem? (f : Nat → ℚ) (n : Nat) (data : List ℚ)
    (hlen : data.length = n) (hdata : ∀ i, i < n → data[i]? = some (f i)) :
    data = (List.range n).map f := by
  apply List.ext_getElem?
  intro j
  rcases Nat.lt_or_ge j n with hj | hj
  · rw [hdata j hj, List.getElem?_map, List.getElem?_range hj]
    rfl
  · rw [List.getElem?_eq_none (by omega), List.getElem?_eq_none (by simpa using hj)]

/-- C3: for every particle count, the position buffer has exactly `3 * count`
elements and the scale buffer exactly `count`; the loop writes the indices
`3i`, `3i + 1`, `3i + 2` of the positions and `i` of the scales for `i < count`
in turn, so every index of either buffer is written exactly once and no other
index is written; and the writes land: when the loop ends, every element of
either buffer is the value the loop stored at its index, computed from the draws
of its own iteration (four draws per iteration, `4 * count` in all); in the
program the lengths are 180 and 60. -/
theorem fireFlies_buffers_filled_once (R : Rounding) (window : Window) (random : Nat → ℚ)
    (count : Nat) :
    (generateFireFlies R random count).positionArray.data.length = 3 * count ∧
    (generateFireFlies R random count).scaleArray.data.length = count ∧
    (generateFireFlies R random count).positionArray.writes =
      (List.range count).flatMap (fun i => [i * 3 + 0, i * 3 + 1, i * 3 + 2]) ∧
    (generateFireFlies R random count).scaleArray.writes = List.range count ∧
    (∀ j, (generateFireFlies R random count).positionArray.writes.count j =
      if j < 3 * count then 1 else 0) ∧
    (∀ j, (generateFireFlies R random count).scaleArray.writes.count j =
      if j < count then 1 else 0) ∧
    (generateFireFlies R random count).positionArray.data =
      (List.range count).flatMap (fun i =>
        [R.fl32 (R.fl64 (R.fl64 (random (4 * i) - 1 / 2) * 4)),
         R.fl32 (R.fl64 (random (4 * i + 1) * (3 / 2))),
         R.fl32 (R.fl64 (R.fl64 (random (4 * i + 2) - 1 / 2) * 4))]) ∧
    (generateFireFlies R random count).scaleArray.data =
      (List.range count).map (fun i => R.fl32 (random (4 * i + 3))) ∧
    (generateFireFlies R random count).randomCalls = 4 * count ∧
    (startup R window random).fireFlies.positionArray.data.length = 180 ∧
    (startup R window random).fireFlies.scaleArray.data.length = 60 := by
  obtain ⟨hr, hpl, hsl, hpw, hsw, hdata⟩ :=
    fireFliesAfter_invariant R random count count le_rfl
  obtain ⟨_, hpl60, hsl60, _⟩ := fireFliesAfter_invariant R random 60 60 le_rfl
  rw [generateFireFlies_eq]
  refine ⟨by rw [hpl]; ring, hsl, by rw [hpw, range_mul_three], hsw, ?_, ?_, ?_, ?_, hr,
    hpl60, hsl60⟩
  · intro j
    rw [hpw, count_range, Nat.mul_comm]
  · intro j
    rw [hsw, count_range]
  · exact eq_triples_of_getElem? _ _ _ count _ hpl
      (fun i hi => ⟨(hdata i hi).1, (hdata i hi).2.1, (hdata i hi).2.2.1⟩)
  · exact eq_map_range_of_getElem? _ count _ hsl (fun i hi => (hdata i hi).2.2.2)

/-- C4: when every draw lies in `[0, 1)`, particle `i` has its X and Z
coordinates, computed as `(r - 0.5) * 4`, in `[-W/2, W/2]` with `W = 4`, its Y
coordinate, computed as `r * 1.5`, in `[0, H]` with `H = 1.5`, and its scale in
`[0, 1]`, whatever the rounding. -/
theorem fireFlies_within_spread (R : Rounding) (random : Nat → ℚ) (count i : Nat)
    (hdraw : ∀ k, 0 ≤ random k ∧ random k < 1) (hi : i < count) :
    ∃ x y z s : ℚ,
      (generateFireFlies R random count).positionArray.data[i * 3 + 0]? = some x ∧
      (generateFireFlies R random count).positionArray.data[i * 3 + 1]? = some y ∧
      (generateFireFlies R random count).positionArray.data[i * 3 + 2]? = some z ∧
      (generateFireFlies R random count).scaleArray.data[i]? = some s ∧
      x = R.fl32 (R.fl64 (R.fl64 (random (4 * i) - 1 / 2) * 4)) ∧
      y = R.fl32 (R.fl64 (random (4 * i + 1) * (3 / 2))) ∧
      z = R.fl32 (R.fl64 (R.fl64 (random (4 * i + 2) - 1 / 2) * 4)) ∧
      s = R.fl32 (random (4 * i + 3)) ∧
      (-(4 / 2) ≤ x ∧ x ≤ 4 / 2) ∧ (0 ≤ y ∧ y ≤ 3 / 2) ∧ (-(4 / 2) ≤ z ∧ z ≤ 4 / 2) ∧
      (0 ≤ s ∧ s ≤ 1) := by
  obtain ⟨_, _, _, _, _, hdata⟩ := fireFliesAfter_invariant R random count count le_rfl
  obtain ⟨h1, h2, h3, h4⟩ := hdata i hi
  rw [generateFireFlies_eq]
  refine ⟨_, _, _, _, h1, h2, h3, h4, rfl, rfl, rfl, rfl, ?_, ?_, ?_, ?_⟩
  · have := spreadXZ_bounds R _ (hdraw (4 * i)).1 (hdraw (4 * i)).2
    constructor <;> [linarith [this.1]; linarith [this.2]]
  · exact spreadY_bounds R _ (hdraw (4 * i + 1)).1 (hdraw (4 * i + 1)).2
  · have := spreadXZ_bounds R _ (hdraw (4 * i + 2)).1 (hdraw (4 * i + 2)).2
    constructor <;> [linarith [this.1]; linarith [this.2]]
  · exact scale_bounds R _ (hdraw (4 * i + 3)).1 (hdraw (4 * i + 3)).2

theorem sampleDraws_range (k : Nat) : 0 ≤ sampleDraws k ∧ sampleDraws k < 1 := by
  unfold sampleDraws
  have hk : (0 : ℚ) ≤ (k : ℚ) := Nat.cast_nonneg k
  constructor
  · positivity
  · rw [div_lt_one (by linarith)]; linarith

theorem fireFlies_within_spread_witness :
    (∀ k, 0 ≤ sampleDraws k ∧ sampleDraws k < 1) ∧ 59 < fireFliesCount ∧
    ∃ x y z s : ℚ,
      (generateFireFlies coarseArithmetic sampleDraws fireFliesCount).positionArray.data[59 * 3 + 0]?
        = some x ∧
      (generateFireFlies coarseArithmetic sampleDraws fireFliesCount).positionArray.data[59 * 3 + 1]?
        = some y ∧
      (generateFireFlies coarseArithmetic sampleDraws fireFliesCount).positionArray.data[59 * 3 + 2]?
        = some z ∧
      (generateFireFlies coarseArithmetic sampleDraws fireFliesCount).scaleArray.data[59]?
        = some s ∧
      (-(4 / 2) ≤ x ∧ x ≤ 4 / 2) ∧ (0 ≤ y ∧ y ≤ 3 / 2) ∧ (-(4 / 2) ≤ z ∧ z ≤ 4 / 2) ∧
      (0 ≤ s ∧ s ≤ 1) := by
  refine ⟨sampleDraws_range, by decide, ?_⟩
  obtain ⟨x, y, z, s, h1, h2, h3, h4, _, _, _, _, hx, hy, hz, hs⟩ :=
    fireFlies_within_spread coarseArithmetic sampleDraws fireFliesCount 59 sampleDraws_range
      (by decide)
  exact ⟨x, y, z, s, h1, h2, h3, h4, hx, hy, hz, hs⟩

/-- C5: whatever the state before, after the resize listener the camera aspect
is the quotient of the new width by the new height and the projection was
recomputed from it, the renderer size is the new size, and the renderer pixel
ratio and the uniform `uPixelRatio` of the fireflies both equal
`min(devicePixelRatio, 2)`. -/
theorem resize_sets_aspect_and_pixel_ratio (R : Rounding) (w : World) (window : Window) :
    (resize R w window).camera.aspect =
      (if window.innerHeight = 0 then
        (if window.innerWidth = 0 then JSNumber.nan else JSNumber.infinity)
      else JSNumber.finite (R.fl64 ((window.innerWidth : ℚ) / (window.innerHeight : ℚ)))) ∧
    (resize R w window).camera.projectionAspect = (resize R w window).camera.aspect ∧
    (resize R w window).renderer.width = window.innerWidth ∧
    (resize R w window).renderer.height = window.innerHeight ∧
    (resize R w window).renderer.pixelRatio = min window.devicePixelRatio 2 ∧
    (resize R w window).fireFliesUniforms.uPixelRatio = min window.devicePixelRatio 2 ∧
    (resize R w window).sizes = ⟨window.innerWidth, window.innerHeight⟩ :=
  ⟨rfl, rfl, rfl, rfl, rfl, rfl, rfl⟩

/-- C7: one `tick` writes the two `uTime` slots and leaves `uPixelRatio`,
`uSize`, `uColorStart`, `uColorEnd`, the camera aspect and the renderer as they
were; one resize writes `uPixelRatio` and leaves `uTime` and `uSize` of the
fireflies and every uniform of the portal as they were. -/
theorem uniform_slots_single_writer (R : Rounding) (w : World) (input : FrameInput)
    (window : Window) :
    ((tick w input).fireFliesUniforms.uTime = input.elapsedTime ∧
      (tick w input).portalUniforms.uTime = input.elapsedTime ∧
      (tick w input).fireFliesUniforms.uPixelRatio = w.fireFliesUniforms.uPixelRatio ∧
      (tick w input).fireFliesUniforms.uSize = w.fireFliesUniforms.uSize ∧
      (tick w input).portalUniforms.uColorStart = w.portalUniforms.uColorStart ∧
      (tick w input).portalUniforms.uColorEnd = w.portalUniforms.uColorEnd ∧
      (tick w input).camera.aspect = w.camera.aspect ∧
      (tick w input).camera.projectionAspect = w.camera.projectionAspect ∧
      (tick w input).renderer = w.renderer ∧
      (tick w input).sizes = w.sizes) ∧
    ((resize R w window).fireFliesUniforms.uPixelRatio = min window.devicePixelRatio 2 ∧
      (resize R w window).fireFliesUniforms.uTime = w.fireFliesUniforms.uTime ∧
      (resize R w window).fireFliesUniforms.uSize = w.fireFliesUniforms.uSize ∧
      (resize R w window).portalUniforms = w.portalUniforms) :=
  ⟨⟨rfl, rfl, rfl, rfl, rfl, rfl, rfl, rfl, rfl, rfl⟩, ⟨rfl, rfl, rfl, rfl⟩⟩

theorem run_cons (R : Rounding) (w : World) (e : Event) (events : List Event) :
    run R w (e :: events) = run R (step R w e) events := rfl

theorem run_append (R : Rounding) (w : World) (pre post : List Event) :
    run R w (pre ++ post) = run R (run R w pre) post := by
  simp [run, List.foldl_append]

theorem run_draws (R : Rounding) (w : World) (events : List Event) :
    (run R w events).draws.map (fun d => d.fireFliesUniforms.uTime) =
      w.draws.map (fun d => d.fireFliesUniforms.uTime) ++
        (w.fireFliesUniforms.uTime :: frameSamples events).dropLast ∧
    (run R w events).draws.map (fun d => d.portalUniforms.uTime) =
      w.draws.map (fun d => d.portalUniforms.uTime) ++
        (w.portalUniforms.uTime :: frameSamples events).dropLast := by
  induction events generalizing w with
  | nil => simp [run, frameSamples]
  | cons e events ih =>
    rw [run_cons]
    obtain ⟨h1, h2⟩ := ih (step R w e)
    rw [h1, h2]
    cases e with
    | frame input => simp [step, tick, frameSamples]
    | resize window => simp [step, resize, frameSamples]
    | load g => simp [step, frameSamples]

/-- C6: in every run from startup, whatever resizes and load completions fall
between the frames, the `uTime` of the fireflies and of the portal read by the
draws are the initial 0 followed by the clock samples of all frames but the
last: the first draw reads 0 and draw `k + 1` reads the sample of frame `k`. -/
theorem uTime_lags_one_frame (R : Rounding) (window : Window) (random : Nat → ℚ)
    (events : List Event) :
    (run R (startup R window random) events).draws.map (fun d => d.fireFliesUniforms.uTime) =
      (0 :: frameSamples events).dropLast ∧
    (run R (startup R window random) events).draws.map (fun d => d.portalUniforms.uTime) =
      (0 :: frameSamples events).dropLast ∧
    (∀ d, (run R (startup R window random) events).draws[0]? = some d →
      d.fireFliesUniforms.uTime = 0 ∧ d.portalUniforms.uTime = 0) ∧
    ∀ k d, (run R (startup R window random) events).draws[k + 1]? = some d →
      (frameSamples events)[k]? = some d.fireFliesUniforms.uTime ∧
      (frameSamples events)[k]? = some d.portalUniforms.uTime := by
  obtain ⟨h1, h2⟩ := run_draws R (startup R window random) events
  have e1 : (startup R window random).draws = [] := rfl
  have e2 : (startup R window random).fireFliesUniforms.uTime = 0 := rfl
  have e3 : (startup R window random).portalUniforms.uTime = 0 := rfl
  rw [e1, e2] at h1
  rw [e1, e3] at h2
  simp only [List.map_nil, List.nil_append] at h1 h2
  have key : ∀ (f : Draw → ℚ) (k : Nat) (d : Draw),
      (run R (startup R window random) events).draws.map f = (0 :: frameSamples events).dropLast →
      (run R (startup R window random) events).draws[k]? = some d →
      (0 :: frameSamples events)[k]? = some (f d) := by
    intro f k d hf hd
    have h3 : ((run R (startup R window random) events).draws.map f)[k]? = some (f d) := by
      simp [hd]
    rw [hf, List.getElem?_dropLast] at h3
    split at h3
    · exact h3
    · cases h3
  refine ⟨h1, h2, ?_, ?_⟩
  · intro d hd
    have a := key (fun d => d.fireFliesUniforms.uTime) 0 d h1 hd
    have b := key (fun d => d.portalUniforms.uTime) 0 d h2 hd
    simp at a b
    exact ⟨a.symm, b.symm⟩
  · intro k d hd
    have a := key (fun d => d.fireFliesUniforms.uTime) (k + 1) d h1 hd
    have b := key (fun d => d.portalUniforms.uTime) (k + 1) d h2 hd
    simp at a b
    exact ⟨a, b⟩

theorem run_scene_of_no_load (R : Rounding) (w : World) (events : List Event)
    (h : ∀ e ∈ events, e.isLoad = false) : (run R w events).scene = w.scene := by
  induction events generalizing w with
  | nil => rfl
  | cons e events ih =>
    rw [run_cons, ih _ (fun e' he' => h e' (List.mem_cons_of_mem _ he'))]
    cases e with
    | frame input => rfl
    | resize window => rfl
    | load g => exact absurd (h _ (List.mem_cons_self _ _)) (by simp [Event.isLoad])

theorem find_of_nodup (g : Object3D) (i : Nat) (hi : i < g.children.length)
    (hnd : (g.children.map name).Nodup) : find g (g.children[i]).name = some i := by
  rw [find_eq_some_iff]
  refine ⟨hi, rfl, ?_⟩
  intro j hj hc
  have hj' : j < (g.children.map name).length := by simp; omega
  have hi' : i < (g.children.map name).length := by simp; omega
  have : (g.children.map name)[j] = (g.children.map name)[i] := by simpa using hc
  have := (@List.Nodup.getElem_inj_iff _ _ hnd j hj' i hi').1 this
  omega

/-- C8: starting from the empty scene, after startup and a load that completes
on a graph whose children bear exactly the five required names, in any order and
among any frames and resizes, the scene holds the fireflies once, the camera,
and the loaded graph once; each of its five children holds the material bound to
its name, four of them `poleLightMaterial` and one `portalLightMaterial`. -/
theorem scene_after_startup_and_load (R : Rounding) (window : Window) (random : Nat → ℚ)
    (pre post : List Event) (g : Object3D)
    (hpre : ∀ e ∈ pre, e.isLoad = false) (hpost : ∀ e ∈ post, e.isLoad = false)
    (hg : (g.children.map name).Perm requiredNames) :
    ∃ G : Object3D,
      (run R (startup R window random) (pre ++ Event.load g :: post)).scene =
        [SceneChild.fireFlies, SceneChild.camera, SceneChild.gltfScene G] ∧
      G = (loadCallback [SceneChild.fireFlies, SceneChild.camera] g).gltfScene ∧
      G.children.map name = g.children.map name ∧
      (∀ c ∈ G.children, c.material = bindingRule c.name) ∧
      (G.children.map material).Perm
        [Material.poleLightMaterial, Material.poleLightMaterial, Material.poleLightMaterial,
         Material.poleLightMaterial, Material.portalLightMaterial] := by
  have hreq : ∀ target ∈ requiredNames, ∃ c ∈ g.children, c.name = target := by
    intro t ht
    have : t ∈ g.children.map name := hg.symm.subset ht
    simpa using this
  have hb : boundNames g = requiredNames := (boundNames_eq_required_iff g).2 hreq
  have hnd : (g.children.map name).Nodup := hg.symm.nodup_iff.1 (by decide)
  have hscene0 : (startup R window random).scene = [SceneChild.fireFlies, SceneChild.camera] :=
    rfl
  obtain ⟨hname, hmat⟩ := loadCallback_boundTo [SceneChild.fireFlies, SceneChild.camera] g
  have herr := (loadCallback_outcome [SceneChild.fireFlies, SceneChild.camera] g).1.2 hb
  have hsc := (loadCallback_outcome [SceneChild.fireFlies, SceneChild.camera] g).2.1 herr
  have hnames : (loadCallback [SceneChild.fireFlies, SceneChild.camera] g).gltfScene.children.map
      name = g.children.map name := by
    apply List.ext_getElem?
    intro i
    have := hname [i]
    simp only [nameAt, nodeAt] at this
    rw [List.getElem?_map, List.getElem?_map]
    cases h1 : (loadCallback [SceneChild.fireFlies, SceneChild.camera] g).gltfScene.children[i]?
      <;> cases h2 : g.children[i]? <;> simp_all
  have hrule : ∀ c ∈ (loadCallback [SceneChild.fireFlies, SceneChild.camera] g).gltfScene.children,
      c.material = bindingRule c.name := by
    intro c hc
    obtain ⟨i, hi, hci⟩ := List.getElem_of_mem hc
    have hlen : (loadCallback [SceneChild.fireFlies, SceneChild.camera] g).gltfScene.children.length
        = g.children.length := by
      simpa using congrArg List.length hnames
    have hi' : i < g.children.length := hlen ▸ hi
    have hcn : c.name = (g.children[i]).name := by
      have := congrArg (fun l => l[i]?) hnames
      simp only [List.getElem?_map, List.getElem?_eq_getElem hi, List.getElem?_eq_getElem hi',
        Option.map_some'] at this
      rw [← hci]; exact Option.some.inj this
    have hfind := find_of_nodup g i hi' hnd
    have hnode : nodeAt (loadCallback [SceneChild.fireFlies, SceneChild.camera] g).gltfScene [i]
        = some c := by
      simp [nodeAt, List.getElem?_eq_getElem hi, hci]
    have hmem : (g.children[i]).name ∈ boundNames g := by
      rw [hb]; exact hg.subset (List.mem_map.2 ⟨_, List.getElem_mem _, rfl⟩)
    rw [hcn]
    exact (hmat [i] c hnode).1 _ hmem i hfind rfl
  refine ⟨_, ?_, rfl, hnames, hrule, ?_⟩
  · rw [run_append, run_cons, run_scene_of_no_load R _ post hpost]
    simp only [step]
    rw [run_scene_of_no_load R _ pre hpre, hscene0, hsc]
    rfl
  · have e : (loadCallback [SceneChild.fireFlies, SceneChild.camera] g).gltfScene.children.map
        material = (g.children.map name).map bindingRule := by
      rw [← hnames, List.map_map]
      exact List.map_congr_left (fun c hc => hrule c hc)
    rw [e]
    exact (hg.map bindingRule).trans (by decide)

theorem scene_after_startup_and_load_witness :
    (fixtureGraph.children.map name).Perm requiredNames ∧
    ∃ G : Object3D,
      (run exactArithmetic (startup exactArithmetic ⟨800, 600, 3⟩ sampleDraws)
        ([Event.frame ⟨0, (0, 3 / 4, 16 / 5)⟩, Event.resize ⟨640, 480, 1⟩] ++
          Event.load fixtureGraph :: [Event.frame ⟨1 / 60, (0, 3 / 4, 16 / 5)⟩])).scene =
        [SceneChild.fireFlies, SceneChild.camera, SceneChild.gltfScene G] ∧
      G = (loadCallback [SceneChild.fireFlies, SceneChild.camera] fixtureGraph).gltfScene :=
  ⟨by decide,
   (scene_after_startup_and_load exactArithmetic ⟨800, 600, 3⟩ sampleDraws
      [Event.frame ⟨0, (0, 3 / 4, 16 / 5)⟩, Event.resize ⟨640, 480, 1⟩]
      [Event.frame ⟨1 / 60, (0, 3 / 4, 16 / 5)⟩] fixtureGraph
      (by simp [Event.isLoad]) (by simp [Event.isLoad]) (by decide)).imp
     (fun _ h => ⟨h.1, h.2.1⟩)⟩

theorem uTime_lags_one_frame_witness :
    (∀ k d, (run exactArithmetic (startup exactArithmetic ⟨800, 600, 3⟩ sampleDraws)
        [Event.frame ⟨1 / 60, (0, 1, 3)⟩, Event.resize ⟨640, 480, 1⟩,
         Event.frame ⟨2 / 60, (0, 1, 3)⟩, Event.frame ⟨3 / 60, (0, 1, 3)⟩]).draws[k + 1]?
          = some d →
      (frameSamples [Event.frame ⟨1 / 60, (0, 1, 3)⟩, Event.resize ⟨640, 480, 1⟩,
         Event.frame ⟨2 / 60, (0, 1, 3)⟩, Event.frame ⟨3 / 60, (0, 1, 3)⟩])[k]?
        = some d.fireFliesUniforms.uTime) ∧
    (run exactArithmetic (startup exactArithmetic ⟨800, 600, 3⟩ sampleDraws)
        [Event.frame ⟨1 / 60, (0, 1, 3)⟩, Event.resize ⟨640, 480, 1⟩,
         Event.frame ⟨2 / 60, (0, 1, 3)⟩, Event.frame ⟨3 / 60, (0, 1, 3)⟩]).draws.map
        (fun d => d.portalUniforms.uTime) = [0, 1 / 60, 2 / 60] :=
  ⟨fun k d hd => ((uTime_lags_one_frame exactArithmetic ⟨800, 600, 3⟩ sampleDraws _).2.2.2
      k d hd).1,
   by
    rw [(uTime_lags_one_frame exactArithmetic ⟨800, 600, 3⟩ sampleDraws _).2.1]
    simp [frameSamples]⟩

end Portal
